/-
Verification of the GPT Actions API service (src/main.py): a shallow
embedding in Lean 4 of the message handler, the document store, the
base64 ingestion path, the claims decoder and the request router,
together with proofs of the spec's testable properties.

Modelling conventions:
* Python strings are Lean `String`s; byte sequences are `List Nat`
  (each element a byte value < 256).
* The filesystem is an association list from path to content; a write
  prepends, a read takes the most recent entry.
* Raised exceptions become `Except HttpError` results.  FastAPI turns an
  uncaught `HTTPException(status, detail)` into an HTTP response with
  that status and a `detail` body, so an `Except.error ⟨status, detail⟩`
  models exactly that response.
* Library calls (`str.strip`, `base64.b64decode`, `bytes.decode("utf-8")`,
  `json.loads`, `os.path.join`) are modelled by executable Lean
  functions mirroring the CPython behaviour the service observes.
* Logging has no effect on any result and is not modelled.
-/
import Mathlib

/-! ### Python `str.strip` -/

/-- Characters Python's `str.strip()` (no arguments) removes: the Unicode
whitespace set used by `str.isspace`. -/
def pyIsSpace (c : Char) : Bool :=
  c = ' ' || c = '\t' || c = '\n' || c = '\r' || c = '\x0b' || c = '\x0c' ||
  (0x1c ≤ c.toNat && c.toNat ≤ 0x1f) || c.toNat = 0x85 || c.toNat = 0xa0 ||
  c.toNat = 0x1680 || (0x2000 ≤ c.toNat && c.toNat ≤ 0x200a) ||
  c.toNat = 0x2028 || c.toNat = 0x2029 || c.toNat = 0x202f ||
  c.toNat = 0x205f || c.toNat = 0x3000

/-- Python `s.strip()`: drop leading and trailing whitespace. -/
def pyStrip (s : String) : String :=
  String.mk (((s.data.dropWhile pyIsSpace).reverse.dropWhile pyIsSpace).reverse)

/-! ### Base64 (`base64.b64encode` / `base64.b64decode`)

`base64.b64decode` with default arguments first discards every character
outside the standard alphabet and `'='`, then decodes groups of four
characters, raising `binascii.Error` when the remaining data is not
properly padded.  The model decodes quads with padding allowed only in
the final quad; exotic mid-stream padding placements that CPython's
non-strict scanner tolerates do not occur in any behaviour specified
here. -/

/-- The standard base64 alphabet, in value order. -/
def b64Alphabet : List Char :=
  ['A','B','C','D','E','F','G','H','I','J','K','L','M','N','O','P',
   'Q','R','S','T','U','V','W','X','Y','Z',
   'a','b','c','d','e','f','g','h','i','j','k','l','m','n','o','p',
   'q','r','s','t','u','v','w','x','y','z',
   '0','1','2','3','4','5','6','7','8','9','+','/']

/-- The alphabet character for a 6-bit value. -/
def b64encChar (n : Nat) : Char := b64Alphabet.getD (n % 64) 'A'

/-- The 6-bit value of an alphabet character, `none` for anything else
(including the padding character). -/
def b64CharVal (c : Char) : Option Nat := b64Alphabet.findIdx? (· = c)

/-- Characters `base64.b64decode` keeps before decoding: the alphabet
plus padding. -/
def b64Keep (c : Char) : Bool := (b64CharVal c).isSome || c = '='

/-- Encode bytes three at a time into four base64 characters, padding the
final group with `'='`. -/
def b64encode : List Nat → List Char
  | [] => []
  | [b1] => [b64encChar (b1 / 4), b64encChar (b1 % 4 * 16), '=', '=']
  | [b1, b2] => [b64encChar (b1 / 4), b64encChar (b1 % 4 * 16 + b2 / 16),
                 b64encChar (b2 % 16 * 4), '=']
  | b1 :: b2 :: b3 :: rest =>
      b64encChar (b1 / 4) :: b64encChar (b1 % 4 * 16 + b2 / 16) ::
      b64encChar (b2 % 16 * 4 + b3 / 64) :: b64encChar (b3 % 64) ::
      b64encode rest

/-- Python `base64.b64encode(bs).decode()`. -/
def b64encodeStr (bs : List Nat) : String := String.mk (b64encode bs)

/-- Decode a filtered character sequence quad by quad.  `none` models
`binascii.Error` (bad length or misplaced padding). -/
def b64decodeQuads : List Char → Option (List Nat)
  | [] => some []
  | a :: b :: c :: d :: rest =>
      match b64CharVal a, b64CharVal b with
      | some va, some vb =>
          if c = '=' then
            if d = '=' ∧ rest = [] then some [va * 4 + vb / 16] else none
          else
            match b64CharVal c with
            | some vc =>
                if d = '=' then
                  if rest = [] then some [va * 4 + vb / 16, vb % 16 * 16 + vc / 4]
                  else none
                else
                  match b64CharVal d, b64decodeQuads rest with
                  | some vd, some tail =>
                      some ((va * 4 + vb / 16) :: (vb % 16 * 16 + vc / 4) ::
                            (vc % 4 * 64 + vd) :: tail)
                  | _, _ => none
            | none => none
      | _, _ => none
  | _ => none

/-- Python `base64.b64decode(s)`: `none` models a raised
`binascii.Error`. -/
def b64decode (s : String) : Option (List Nat) :=
  b64decodeQuads (s.data.filter b64Keep)

/-! ### Filesystem model -/

/-- The filesystem: newest write first, one entry per write. -/
abbrev Fs := List (String × List Nat)

/-- Write (create or overwrite) a file. -/
def fsWrite (path : String) (content : List Nat) (fs : Fs) : Fs :=
  (path, content) :: fs

/-- Read a file back: the most recent write to `path` wins. -/
def fsRead (fs : Fs) (path : String) : Option (List Nat) :=
  (fs.find? (fun e => e.1 = path)).map (fun e => e.2)

/-- Python `os.path.join` on POSIX, as used with the upload directory. -/
def osPathJoin (a b : String) : String :=
  if b.startsWith "/" then b
  else if a.endsWith "/" then a ++ b
  else a ++ "/" ++ b

/-- The module-level upload directory constant `UPLOAD_DIR`. -/
def UPLOAD_DIR : String := "uploaded_documents"

/-! ### Schemas (the pydantic models of src/main.py) -/

structure UserMessage where
  userId : String
  username : String
  message : String
deriving DecidableEq, Repr

structure UserMessageWithBase64 where
  userId : String
  username : String
  message : String
  filename : String
  fileData : String
deriving DecidableEq, Repr

structure MessageResponse where
  userId : String
  username : String
  message : String
  response : String
deriving DecidableEq, Repr

structure FileUploadResponse where
  filename : String
  status : String
deriving DecidableEq, Repr

structure MessageWithFileResponse where
  messageResponse : MessageResponse
  fileUpload : FileUploadResponse
deriving DecidableEq, Repr

/-- A multipart upload: FastAPI's `UploadFile` restricted to what the
service reads (`file.filename` and the byte stream `file.file.read()`). -/
structure UploadFile where
  filename : String
  content : List Nat
deriving DecidableEq, Repr

/-- A raised `HTTPException(status_code, detail)`. -/
structure HttpError where
  status : Nat
  detail : String
deriving DecidableEq, Repr

/-- Starlette's `str(HTTPException)`,used when an exception handler
formats a caught `HTTPException` with `str(e)`: `"{status_code}: {detail}"`. -/
def strOfHttpError (e : HttpError) : String :=
  toString e.status ++ ": " ++ e.detail

/-! ### Services -/

/-- `handle_user_message` (src/main.py lines 96-106): reject a message
that is empty after stripping, else echo it back. -/
def handle_user_message (msg : UserMessage) : Except HttpError MessageResponse :=
  if pyStrip msg.message = "" then
    .error ⟨500, "Message cannot be empty."⟩
  else
    .ok ⟨msg.userId, msg.username, msg.message,
         "Echo to " ++ msg.username ++ ": " ++ msg.message⟩

/-- `save_document` (src/main.py lines 108-120): write the uploaded bytes
under `UPLOAD_DIR` and report success.  The `except` branch re-raising an
I/O failure as `HTTPException(500, str(e))` is unreachable in this model,
where directory creation and file writes always succeed. -/
def save_document (file : UploadFile) (fs : Fs) : FileUploadResponse × Fs :=
  let file_path := osPathJoin UPLOAD_DIR file.filename
  (⟨file.filename, "uploaded"⟩, fsWrite file_path file.content fs)

/-! ### Routes -/

/-- `POST /message` (`process_message`, src/main.py lines 126-133): the
route returns `handle_user_message` directly; an `HTTPException`
propagates to FastAPI uncaught. -/
def process_message (msg : UserMessage) : Except HttpError MessageResponse :=
  handle_user_message msg

/-- `POST /message/with-messangeAndbase64File`
(`process_message_with_base64_file`, src/main.py lines 141-162).
`open(file_path, "wb")` truncates the file before `base64.b64decode` is
evaluated as the argument of `f.write`, so a failing decode still leaves
an empty file behind.  The single `except Exception` re-raises any
failure — including the `HTTPException` from `handle_user_message` — as
`HTTPException(500, str(e))`.  The `binascii.Error` text depends on the
failure mode; it is modelled by the most common one. -/
def process_message_with_base64_file (msg : UserMessageWithBase64) (fs : Fs) :
    Except HttpError MessageWithFileResponse × Fs :=
  let file_path := osPathJoin UPLOAD_DIR msg.filename
  match b64decode msg.fileData with
  | none => (.error ⟨500, "Incorrect padding"⟩, fsWrite file_path [] fs)
  | some bytes =>
      let fs1 := fsWrite file_path bytes fs
      let file_result : FileUploadResponse := ⟨msg.filename, "uploaded"⟩
      match handle_user_message ⟨msg.userId, msg.username, msg.message⟩ with
      | .error e => (.error ⟨500, strOfHttpError e⟩, fs1)
      | .ok mr => (.ok ⟨mr, file_result⟩, fs1)

/-- `POST /message/with-file` (`process_message_with_file`, src/main.py
lines 170-184): save the file, then validate the message; there is no
`try` block, so a validation failure propagates after the save. -/
def process_message_with_file (userId username message : String)
    (file : UploadFile) (fs : Fs) :
    Except HttpError MessageWithFileResponse × Fs :=
  let (file_result, fs1) := save_document file fs
  match handle_user_message ⟨userId, username, message⟩ with
  | .error e => (.error e, fs1)
  | .ok mr => (.ok ⟨mr, file_result⟩, fs1)

/-- `POST /document/upload` (`upload_document`, src/main.py lines
192-197): delegates to `save_document`. -/
def upload_document (userId username : String) (file : UploadFile) (fs : Fs) :
    FileUploadResponse × Fs :=
  save_document file fs

/-! ### UTF-8 decoding (`bytes.decode("utf-8")`)

Python's strict UTF-8 decoder: rejects continuation-byte errors, overlong
encodings, surrogate code points and out-of-range sequences, raising
`UnicodeDecodeError` (modelled as `none`). -/

/-- Is `b` a UTF-8 continuation byte? -/
def utf8Cont (b : Nat) : Bool := 0x80 ≤ b && b ≤ 0xbf

/-- Decode a UTF-8 byte sequence to characters; `none` models a raised
`UnicodeDecodeError`. -/
def utf8Decode : List Nat → Option (List Char)
  | [] => some []
  | b1 :: rest =>
      if b1 < 0x80 then
        (utf8Decode rest).map (fun cs => Char.ofNat b1 :: cs)
      else if b1 < 0xc2 then none
      else if b1 < 0xe0 then
        match rest with
        | b2 :: rest2 =>
            if utf8Cont b2 then
              (utf8Decode rest2).map (fun cs =>
                Char.ofNat ((b1 - 0xc0) * 64 + (b2 - 0x80)) :: cs)
            else none
        | [] => none
      else if b1 < 0xf0 then
        match rest with
        | b2 :: b3 :: rest3 =>
            if utf8Cont b2 ∧ utf8Cont b3 ∧ (b1 = 0xe0 → 0xa0 ≤ b2) ∧
               (b1 = 0xed → b2 < 0xa0) then
              (utf8Decode rest3).map (fun cs =>
                Char.ofNat ((b1 - 0xe0) * 4096 + (b2 - 0x80) * 64 + (b3 - 0x80)) :: cs)
            else none
        | _ => none
      else if b1 < 0xf5 then
        match rest with
        | b2 :: b3 :: b4 :: rest4 =>
            if utf8Cont b2 ∧ utf8Cont b3 ∧ utf8Cont b4 ∧ (b1 = 0xf0 → 0x90 ≤ b2) ∧
               (b1 = 0xf4 → b2 < 0x90) then
              (utf8Decode rest4).map (fun cs =>
                Char.ofNat ((b1 - 0xf0) * 262144 + (b2 - 0x80) * 4096 +
                            (b3 - 0x80) * 64 + (b4 - 0x80)) :: cs)
            else none
        | _ => none
      else none

/-! ### JSON values (`json.loads`) -/

/-- The code points of a Lean string, in the representation used for
parsed JSON strings. -/
def strCodes (s : String) : List Nat := s.data.map Char.toNat

/-- A parsed JSON value.  Numbers keep their raw token (the service never
computes with them), objects keep their fields in source order.  String
values and object keys are code-point sequences rather than Lean
`String`s because CPython's scanner can produce lone surrogates from
`\uXXXX` escapes, which a Lean `Char` cannot carry. -/
inductive Json where
  | null : Json
  | bool (b : Bool) : Json
  | num (raw : String) : Json
  | str (s : List Nat) : Json
  | arr (elems : List Json) : Json
  | obj (fields : List (List Nat × Json)) : Json

mutual

def jsonBeq : Json → Json → Bool
  | .null, .null => true
  | .bool a, .bool b => a == b
  | .num a, .num b => a == b
  | .str a, .str b => a == b
  | .arr xs, .arr ys => jsonBeqArr xs ys
  | .obj xs, .obj ys => jsonBeqObj xs ys
  | _, _ => false

def jsonBeqArr : List Json → List Json → Bool
  | [], [] => true
  | x :: xs, y :: ys => jsonBeq x y && jsonBeqArr xs ys
  | _, _ => false

def jsonBeqObj : List (List Nat × Json) → List (List Nat × Json) → Bool
  | [], [] => true
  | (k1, v1) :: xs, (k2, v2) :: ys => k1 == k2 && jsonBeq v1 v2 && jsonBeqObj xs ys
  | _, _ => false

end

mutual

theorem jsonBeq_refl : ∀ a : Json, jsonBeq a a = true
  | .null => rfl
  | .bool b => by simp [jsonBeq]
  | .num r => by simp [jsonBeq]
  | .str s => by simp [jsonBeq]
  | .arr xs => by simp [jsonBeq, jsonBeqArr_refl xs]
  | .obj xs => by simp [jsonBeq, jsonBeqObj_refl xs]

theorem jsonBeqArr_refl : ∀ xs : List Json, jsonBeqArr xs xs = true
  | [] => rfl
  | x :: xs => by simp [jsonBeqArr, jsonBeq_refl x, jsonBeqArr_refl xs]

theorem jsonBeqObj_refl : ∀ xs : List (List Nat × Json), jsonBeqObj xs xs = true
  | [] => rfl
  | (k, v) :: xs => by simp [jsonBeqObj, jsonBeq_refl v, jsonBeqObj_refl xs]

end

mutual

theorem jsonBeq_eq : ∀ a b : Json, jsonBeq a b = true → a = b
  | .null, .null, _ => rfl
  | .bool a, .bool b, h => by simp [jsonBeq] at h; simp [h]
  | .num a, .num b, h => by simp [jsonBeq] at h; simp [h]
  | .str a, .str b, h => by simp [jsonBeq] at h; simp [h]
  | .arr xs, .arr ys, h => by
      rw [jsonBeqArr_eq xs ys (by simpa [jsonBeq] using h)]
  | .obj xs, .obj ys, h => by
      rw [jsonBeqObj_eq xs ys (by simpa [jsonBeq] using h)]
  | .null, .bool _, h => by simp [jsonBeq] at h
  | .null, .num _, h => by simp [jsonBeq] at h
  | .null, .str _, h => by simp [jsonBeq] at h
  | .null, .arr _, h => by simp [jsonBeq] at h
  | .null, .obj _, h => by simp [jsonBeq] at h
  | .bool _, .null, h => by simp [jsonBeq] at h
  | .bool _, .num _, h => by simp [jsonBeq] at h
  | .bool _, .str _, h => by simp [jsonBeq] at h
  | .bool _, .arr _, h => by simp [jsonBeq] at h
  | .bool _, .obj _, h => by simp [jsonBeq] at h
  | .num _, .null, h => by simp [jsonBeq] at h
  | .num _, .bool _, h => by simp [jsonBeq] at h
  | .num _, .str _, h => by simp [jsonBeq] at h
  | .num _, .arr _, h => by simp [jsonBeq] at h
  | .num _, .obj _, h => by simp [jsonBeq] at h
  | .str _, .null, h => by simp [jsonBeq] at h
  | .str _, .bool _, h => by simp [jsonBeq] at h
  | .str _, .num _, h => by simp [jsonBeq] at h
  | .str _, .arr _, h => by simp [jsonBeq] at h
  | .str _, .obj _, h => by simp [jsonBeq] at h
  | .arr _, .null, h => by simp [jsonBeq] at h
  | .arr _, .bool _, h => by simp [jsonBeq] at h
  | .arr _, .num _, h => by simp [jsonBeq] at h
  | .arr _, .str _, h => by simp [jsonBeq] at h
  | .arr _, .obj _, h => by simp [jsonBeq] at h
  | .obj _, .null, h => by simp [jsonBeq] at h
  | .obj _, .bool _, h => by simp [jsonBeq] at h
  | .obj _, .num _, h => by simp [jsonBeq] at h
  | .obj _, .str _, h => by simp [jsonBeq] at h
  | .obj _, .arr _, h => by simp [jsonBeq] at h

theorem jsonBeqArr_eq : ∀ xs ys : List Json, jsonBeqArr xs ys = true → xs = ys
  | [], [], _ => rfl
  | [], _ :: _, h => by simp [jsonBeqArr] at h
  | _ :: _, [], h => by simp [jsonBeqArr] at h
  | x :: xs, y :: ys, h => by
      simp [jsonBeqArr] at h
      rw [jsonBeq_eq x y h.1, jsonBeqArr_eq xs ys h.2]

theorem jsonBeqObj_eq : ∀ xs ys : List (List Nat × Json), jsonBeqObj xs ys = true → xs = ys
  | [], [], _ => rfl
  | [], _ :: _, h => by simp [jsonBeqObj] at h
  | _ :: _, [], h => by simp [jsonBeqObj] at h
  | (k1, v1) :: xs, (k2, v2) :: ys, h => by
      simp [jsonBeqObj] at h
      rw [h.1.1, jsonBeq_eq v1 v2 h.1.2, jsonBeqObj_eq xs ys h.2]

end

instance : BEq Json := ⟨jsonBeq⟩

instance : LawfulBEq Json where
  eq_of_beq h := jsonBeq_eq _ _ h
  rfl := jsonBeq_refl _

instance : DecidableEq Json := fun a b =>
  decidable_of_iff (jsonBeq a b = true) ⟨jsonBeq_eq a b, fun h => h ▸ jsonBeq_refl a⟩

/-! ### JSON parsing (`json.loads`)

A fuelled recursive-descent reader of the JSON grammar accepted by
CPython's `json.loads` with default arguments: the RFC 8259 grammar plus
`NaN` / `Infinity` / `-Infinity`, strict rejection of raw control
characters in strings, surrogate-pair combination for `\uXXXX` escapes,
and lone surrogates kept as code points exactly as CPython keeps them in
the resulting `str`.  The fuel passed by `jsonLoads` exceeds any
possible nesting, so it never runs out on inputs CPython accepts. -/

/-- JSON inter-token whitespace. -/
def jsonWsChar (c : Char) : Bool := c = ' ' || c = '\t' || c = '\n' || c = '\r'

/-- Skip inter-token whitespace. -/
def skipJsonWs (cs : List Char) : List Char := cs.dropWhile jsonWsChar

/-- Value of a hexadecimal digit. -/
def hexVal (c : Char) : Option Nat :=
  if '0' ≤ c ∧ c ≤ '9' then some (c.toNat - '0'.toNat)
  else if 'a' ≤ c ∧ c ≤ 'f' then some (c.toNat - 'a'.toNat + 10)
  else if 'A' ≤ c ∧ c ≤ 'F' then some (c.toNat - 'A'.toNat + 10)
  else none

/-- Read the body of a JSON string literal after the opening quote,
returning its code points and the input past the closing quote.
Follows CPython's scanner: a `\uXXXX` high surrogate immediately
followed by a `\uXXXX` low surrogate combines into one code point; a
high surrogate followed by anything else — including a `\uXXXX` escape
that is not a low surrogate, which is then scanned on its own — stays a
lone surrogate code point, as does a bare low surrogate. -/
def pJStrChars : List Char → Option (List Nat × List Char)
  | [] => none
  | '"' :: rest => some ([], rest)
  | '\\' :: esc =>
      match esc with
      | '"' :: r => (pJStrChars r).map (fun p => ('"'.toNat :: p.1, p.2))
      | '\\' :: r => (pJStrChars r).map (fun p => ('\\'.toNat :: p.1, p.2))
      | '/' :: r => (pJStrChars r).map (fun p => ('/'.toNat :: p.1, p.2))
      | 'b' :: r => (pJStrChars r).map (fun p => (0x08 :: p.1, p.2))
      | 'f' :: r => (pJStrChars r).map (fun p => (0x0c :: p.1, p.2))
      | 'n' :: r => (pJStrChars r).map (fun p => ('\n'.toNat :: p.1, p.2))
      | 'r' :: r => (pJStrChars r).map (fun p => ('\r'.toNat :: p.1, p.2))
      | 't' :: r => (pJStrChars r).map (fun p => ('\t'.toNat :: p.1, p.2))
      | 'u' :: h1 :: h2 :: h3 :: h4 :: r =>
          match hexVal h1, hexVal h2, hexVal h3, hexVal h4 with
          | some v1, some v2, some v3, some v4 =>
              let cp := v1 * 4096 + v2 * 256 + v3 * 16 + v4
              if 0xd800 ≤ cp ∧ cp < 0xdc00 then
                match r with
                | '\\' :: 'u' :: g1 :: g2 :: g3 :: g4 :: r2 =>
                    match hexVal g1, hexVal g2, hexVal g3, hexVal g4 with
                    | some w1, some w2, some w3, some w4 =>
                        let lo := w1 * 4096 + w2 * 256 + w3 * 16 + w4
                        if 0xdc00 ≤ lo ∧ lo < 0xe000 then
                          (pJStrChars r2).map (fun p =>
                            ((0x10000 + (cp - 0xd800) * 1024 +
                              (lo - 0xdc00)) :: p.1, p.2))
                        else
                          (pJStrChars ('\\' :: 'u' :: g1 :: g2 :: g3 :: g4 :: r2)).map
                            (fun p => (cp :: p.1, p.2))
                    | _, _, _, _ => none
                | r1 => (pJStrChars r1).map (fun p => (cp :: p.1, p.2))
              else (pJStrChars r).map (fun p => (cp :: p.1, p.2))
          | _, _, _, _ => none
      | _ => none
  | c :: rest =>
      if c.toNat < 0x20 then none
      else (pJStrChars rest).map (fun p => (c.toNat :: p.1, p.2))

/-- Read a JSON number token, returning its raw text and the rest. -/
def pJNumTok (cs : List Char) : Option (List Char × List Char) :=
  let (sign, cs1) :=
    match cs with
    | '-' :: r => (['-'], r)
    | _ => (([] : List Char), cs)
  let ds := cs1.takeWhile Char.isDigit
  let cs2 := cs1.dropWhile Char.isDigit
  if ds = [] then none
  else if 2 ≤ ds.length ∧ ds.headD '0' = '0' then none
  else
    let (frac, cs3) :=
      match cs2 with
      | '.' :: r =>
          let fs := r.takeWhile Char.isDigit
          if fs = [] then (([] : List Char), cs2)
          else ('.' :: fs, r.dropWhile Char.isDigit)
      | _ => (([] : List Char), cs2)
    match cs3 with
      | e :: r3 =>
          if e = 'e' ∨ e = 'E' then
            let (esign, r4) :=
              match r3 with
              | '+' :: r => (['+'], r)
              | '-' :: r => (['-'], r)
              | _ => (([] : List Char), r3)
            let es := r4.takeWhile Char.isDigit
            if es = [] then none
            else some (sign ++ ds ++ frac ++ e :: esign ++ es,
                       r4.dropWhile Char.isDigit)
          else some (sign ++ ds ++ frac, cs3)
      | [] => some (sign ++ ds ++ frac, cs3)

mutual

/-- Read one JSON value (fuelled). -/
def pJValue : Nat → List Char → Option (Json × List Char)
  | 0, _ => none
  | fuel + 1, cs =>
      match skipJsonWs cs with
      | 'n' :: 'u' :: 'l' :: 'l' :: rest => some (.null, rest)
      | 't' :: 'r' :: 'u' :: 'e' :: rest => some (.bool true, rest)
      | 'f' :: 'a' :: 'l' :: 's' :: 'e' :: rest => some (.bool false, rest)
      | 'N' :: 'a' :: 'N' :: rest => some (.num "nan", rest)
      | 'I' :: 'n' :: 'f' :: 'i' :: 'n' :: 'i' :: 't' :: 'y' :: rest =>
          some (.num "inf", rest)
      | '-' :: 'I' :: 'n' :: 'f' :: 'i' :: 'n' :: 'i' :: 't' :: 'y' :: rest =>
          some (.num "-inf", rest)
      | '"' :: rest => (pJStrChars rest).map (fun p => (.str p.1, p.2))
      | '[' :: rest =>
          match skipJsonWs rest with
          | ']' :: r2 => some (.arr [], r2)
          | _ => (pJElems fuel rest).map (fun p => (.arr p.1, p.2))
      | '\x7b' :: rest =>
          match skipJsonWs rest with
          | '\x7d' :: r2 => some (.obj [], r2)
          | _ => (pJMembers fuel rest).map (fun p => (.obj p.1, p.2))
      | other => (pJNumTok other).map (fun p => (.num (String.mk p.1), p.2))

/-- Read the elements of a non-empty JSON array (fuelled). -/
def pJElems : Nat → List Char → Option (List Json × List Char)
  | 0, _ => none
  | fuel + 1, cs =>
      match pJValue fuel cs with
      | some (v, rest) =>
          match skipJsonWs rest with
          | ',' :: r2 => (pJElems fuel r2).map (fun p => (v :: p.1, p.2))
          | ']' :: r2 => some ([v], r2)
          | _ => none
      | none => none

/-- Read the members of a non-empty JSON object (fuelled). -/
def pJMembers : Nat → List Char → Option (List (List Nat × Json) × List Char)
  | 0, _ => none
  | fuel + 1, cs =>
      match skipJsonWs cs with
      | '"' :: rest =>
          match pJStrChars rest with
          | some (kcs, r1) =>
              match skipJsonWs r1 with
              | ':' :: r2 =>
                  match pJValue fuel r2 with
                  | some (v, r3) =>
                      match skipJsonWs r3 with
                      | ',' :: r4 =>
                          (pJMembers fuel r4).map
                            (fun p => ((kcs, v) :: p.1, p.2))
                      | '\x7d' :: r4 => some ([(kcs, v)], r4)
                      | _ => none
                  | none => none
              | _ => none
          | none => none
      | _ => none

end

/-- Python `json.loads(s)`: `none` models a raised
`json.JSONDecodeError`. -/
def jsonLoads (s : String) : Option Json :=
  match pJValue (2 * s.length + 2) s.data with
  | some (j, rest) => if skipJsonWs rest = [] then some j else none
  | none => none

/-! ### Claims extraction (`get_user_from_request`, src/main.py lines 49-60) -/

/-- Lookup in a Python `dict` built from parsed-JSON object fields:
`json.loads` collapses duplicate keys last-wins, so on the raw field list
the last matching field is the one visible. -/
def objGet (fields : List (List Nat × Json)) (k : List Nat) : Option Json :=
  (fields.reverse.find? (fun p => p.1 = k)).map (fun p => p.2)

/-- Python hashability of a `json.loads` value: lists and dicts are
unhashable, so using one as a dict key raises `TypeError`. -/
def jsonHashable : Json → Bool
  | .arr _ => false
  | .obj _ => false
  | _ => true

/-- One step of the comprehension
`{claim["typ"]: claim["val"] for claim in ...}`: `claim["typ"]` and
`claim["val"]` demand a record with both keys (else `TypeError` or
`KeyError`), and inserting under the `typ` key demands a hashable key
(else `TypeError: unhashable type`); every raise is modelled as
`none`. -/
def claimPair (c : Json) : Option (Json × Json) :=
  match c with
  | .obj fields =>
      match objGet fields (strCodes "typ"), objGet fields (strCodes "val") with
      | some t, some v => if jsonHashable t then some (t, v) else none
      | _, _ => none
  | _ => none

/-- The Python dict built by the comprehension, as its insertion
sequence: `none` when any record raises, aborting the whole
comprehension. -/
def buildClaims : List Json → Option (List (Json × Json))
  | [] => some []
  | c :: cs =>
      match claimPair c, buildClaims cs with
      | some p, some ps => some (p :: ps)
      | _, _ => none

/-- Reading of a Python dict built from an insertion sequence: the last
binding of a key wins (later insertions overwrite earlier ones). -/
def dictGet (d : List (Json × Json)) (k : Json) : Option Json :=
  (d.reverse.find? (fun p => p.1 = k)).map (fun p => p.2)

/-- The body of the `try` block of `get_user_from_request` after JSON
parsing: `principal_json.get("claims", [])` (an `AttributeError` when the
principal is not an object) followed by the dict comprehension.  When the
`claims` value is neither a list nor empty-iterable, iteration raises;
the iterable-but-empty non-list values (`""`, `{}`) would yield an empty
dict, indistinguishable from the `none => []` fail-soft branch below. -/
def claimsDict (principal : Json) : Option (List (Json × Json)) :=
  match principal with
  | .obj fields =>
      match (objGet fields (strCodes "claims")).getD (.arr []) with
      | .arr cs => buildClaims cs
      | _ => none
  | _ => none

/-- The staged decoding of the header value inside the `try` block:
`base64.b64decode` → `.decode("utf-8")` → `json.loads`. -/
def principalOfHeader (enc : String) : Option Json := do
  let bytes ← b64decode enc
  let chars ← utf8Decode bytes
  jsonLoads (String.mk chars)

/-- `get_user_from_request` (src/main.py lines 49-60): absent header or
any failure inside the `try` block yields an empty mapping; otherwise the
flattened claims dict. -/
def get_user_from_request (header : Option String) : List (Json × Json) :=
  match header with
  | none => []
  | some enc =>
      match principalOfHeader enc with
      | none => []
      | some principal =>
          match claimsDict principal with
          | none => []
          | some d => d

/-! ### Health check (src/main.py lines 200-210) -/

/-- Python `str()` of a value produced by `json.loads`, as interpolated
by the f-string in `health_check`.  Scalars follow CPython exactly,
except that float tokens are kept verbatim rather than re-rendered and
that a string code point with no Lean `Char` representation (a lone
surrogate) renders as U+0000; containers use a `repr`-style placeholder.
Nothing modelled here depends on those renderings. -/
def pyStr : Json → String
  | .str s => String.mk (s.map Char.ofNat)
  | .null => "None"
  | .bool true => "True"
  | .bool false => "False"
  | .num raw => raw
  | .arr _ => "[...]"
  | .obj _ => "\x7b...\x7d"

/-- The well-known email-address claim type looked up by the health
endpoint. -/
def emailClaimUri : String :=
  "http://schemas.xmlsoap.org/ws/2005/05/identity/claims/emailaddress"

/-- `GET /health` (`health_check`, src/main.py lines 200-210): look up
the email claim with fallback `"unknown"` and embed it in the status
string. -/
def health_check (header : Option String) : String :=
  let user_claims := get_user_from_request header
  let email :=
    match dictGet user_claims (.str (strCodes emailClaimUri)) with
    | some v => pyStr v
    | none => "unknown"
  "ok - user: " ++ email

/-! ### Helper lemmas -/

theorem b64CharVal_getD : ∀ n < 64, b64CharVal (b64Alphabet.getD n 'A') = some n := by
  decide

theorem b64CharVal_encChar (n : Nat) : b64CharVal (b64encChar n) = some (n % 64) :=
  b64CharVal_getD (n % 64) (Nat.mod_lt n (by norm_num))

theorem b64encChar_ne_pad (n : Nat) : b64encChar n ≠ '=' := by
  intro h
  have h1 := b64CharVal_encChar n
  rw [h] at h1
  have h2 : b64CharVal '=' = none := by decide
  rw [h2] at h1
  exact Option.noConfusion h1

theorem b64Keep_encChar (n : Nat) : b64Keep (b64encChar n) = true := by
  simp [b64Keep, b64CharVal_encChar]

theorem b64Keep_pad : b64Keep '=' = true := by decide

theorem b64encode_keep : ∀ bs : List Nat, ∀ c ∈ b64encode bs, b64Keep c = true := by
  intro bs
  induction bs using b64encode.induct with
  | case1 => simp [b64encode]
  | case2 b1 => simp [b64encode, b64Keep_encChar, b64Keep_pad]
  | case3 b1 b2 => simp [b64encode, b64Keep_encChar, b64Keep_pad]
  | case4 b1 b2 b3 rest ih =>
      intro c hc
      simp only [b64encode, List.mem_cons] at hc
      rcases hc with h | h | h | h | h
      · exact h ▸ b64Keep_encChar _
      · exact h ▸ b64Keep_encChar _
      · exact h ▸ b64Keep_encChar _
      · exact h ▸ b64Keep_encChar _
      · exact ih c h

theorem b64decodeQuads_encode :
    ∀ bs : List Nat, (∀ b ∈ bs, b < 256) → b64decodeQuads (b64encode bs) = some bs := by
  intro bs
  induction bs using b64encode.induct with
  | case1 => intro _; rfl
  | case2 b1 =>
      intro h
      have hb1 : b1 < 256 := h b1 (by simp)
      simp only [b64encode, b64decodeQuads, b64CharVal_encChar]
      norm_num
      omega
  | case3 b1 b2 =>
      intro h
      have hb1 : b1 < 256 := h b1 (by simp)
      have hb2 : b2 < 256 := h b2 (by simp)
      simp only [b64encode, b64decodeQuads, b64CharVal_encChar, b64encChar_ne_pad,
                 if_false]
      norm_num [b64encChar_ne_pad]
      constructor <;> omega
  | case4 b1 b2 b3 rest ih =>
      intro h
      have hb1 : b1 < 256 := h b1 (by simp)
      have hb2 : b2 < 256 := h b2 (by simp)
      have hb3 : b3 < 256 := h b3 (by simp)
      have hrest := ih (fun b hb => h b (by simp [hb]))
      simp only [b64encode, b64decodeQuads, b64CharVal_encChar, hrest]
      norm_num [b64encChar_ne_pad]
      refine ⟨?_, ?_, ?_⟩ <;> omega

/-- Decoding is a left inverse of encoding on byte sequences: the model
of `base64.b64decode(base64.b64encode(bs))` recovers `bs`. -/
theorem b64_roundtrip (bs : List Nat) (h : ∀ b ∈ bs, b < 256) :
    b64decode (b64encodeStr bs) = some bs := by
  show b64decodeQuads ((b64encode bs).filter b64Keep) = some bs
  rw [List.filter_eq_self.mpr (b64encode_keep bs), b64decodeQuads_encode bs h]

/-- A string of whitespace strips to the empty string. -/
theorem pyStrip_all_space (s : String) (h : ∀ c ∈ s.data, pyIsSpace c = true) :
    pyStrip s = "" := by
  unfold pyStrip
  rw [List.dropWhile_eq_nil_iff.mpr h]
  rfl

/-- Reading a dict at a key whose last insertion is `(t, v)` (no later
record re-binds `t`) yields `v`. -/
theorem dictGet_last (pre post : List (Json × Json)) (t v : Json)
    (hpost : ∀ p ∈ post, p.1 ≠ t) :
    dictGet (pre ++ (t, v) :: post) t = some v := by
  unfold dictGet
  rw [List.reverse_append, List.reverse_cons]
  rw [List.find?_append, List.find?_append]
  have hnone : post.reverse.find? (fun p => p.1 = t) = none :=
    List.find?_eq_none.mpr (by
      intro p hp
      simpa using hpost p (by simpa using hp))
  rw [hnone]
  simp

/-- A failing record anywhere in the claims array aborts the whole
comprehension. -/
theorem buildClaims_mem_none :
    ∀ (cs : List Json) (c : Json), c ∈ cs → claimPair c = none →
      buildClaims cs = none := by
  intro cs
  induction cs with
  | nil => intro c hc _; simp at hc
  | cons x xs ih =>
      intro c hc hbad
      rcases List.mem_cons.mp hc with h | h
      · subst h
        simp [buildClaims, hbad]
      · rw [buildClaims, ih c h hbad]
        cases claimPair x <;> rfl

/-! ### Claim theorems -/

/-- C1: for every `UserMessage` whose `message` is non-empty after
trimming whitespace, `handle_user_message` returns exactly
`{userId, username, message, response}` with the input fields unchanged
and `response` the literal pattern `"Echo to {username}: {message}"`
built from the untrimmed inputs. -/
theorem echo_response_pattern (msg : UserMessage) (h : pyStrip msg.message ≠ "") :
    handle_user_message msg =
      .ok ⟨msg.userId, msg.username, msg.message,
           "Echo to " ++ msg.username ++ ": " ++ msg.message⟩ := by
  simp [handle_user_message, h]

theorem echo_response_pattern_witness :
    pyStrip "hi" ≠ "" ∧
    handle_user_message ⟨"u1", "alice", "hi"⟩ =
      .ok ⟨"u1", "alice", "hi", "Echo to alice: hi"⟩ :=
  ⟨by decide, echo_response_pattern ⟨"u1", "alice", "hi"⟩ (by decide)⟩

/-- C2: for every `UserMessage` whose `message` is empty or all
whitespace, `handle_user_message` never returns a response: it raises,
and via `POST /message` the failure surfaces as HTTP 500 with detail
exactly `"Message cannot be empty."`. -/
theorem empty_message_rejected (msg : UserMessage)
    (h : ∀ c ∈ msg.message.data, pyIsSpace c = true) :
    handle_user_message msg = .error ⟨500, "Message cannot be empty."⟩ ∧
    process_message msg = .error ⟨500, "Message cannot be empty."⟩ := by
  have hs : pyStrip msg.message = "" := pyStrip_all_space _ h
  constructor
  · simp [handle_user_message, hs]
  · simp [process_message, handle_user_message, hs]

theorem empty_message_rejected_witness :
    (∀ c ∈ ("   " : String).data, pyIsSpace c = true) ∧
    process_message ⟨"u1", "alice", "   "⟩ =
      .error ⟨500, "Message cannot be empty."⟩ :=
  ⟨by decide, (empty_message_rejected ⟨"u1", "alice", "   "⟩ (by decide)).2⟩

/-- C4: round-trip of both ingestion paths: the file saved by multipart
`save_document` reads back as exactly the uploaded bytes, and the file
saved by the base64 endpoint from an encoded byte sequence reads back as
exactly those original bytes. -/
theorem upload_roundtrip (file : UploadFile) (msg : UserMessageWithBase64)
    (bs : List Nat) (fs fs2 : Fs)
    (hbytes : ∀ b ∈ bs, b < 256) (henc : msg.fileData = b64encodeStr bs) :
    fsRead (save_document file fs).2 (osPathJoin UPLOAD_DIR file.filename) =
      some file.content ∧
    fsRead (process_message_with_base64_file msg fs2).2
      (osPathJoin UPLOAD_DIR msg.filename) = some bs := by
  constructor
  · simp [save_document, fsWrite, fsRead]
  · have hdec : b64decode msg.fileData = some bs := henc ▸ b64_roundtrip bs hbytes
    simp only [process_message_with_base64_file, hdec]
    cases handle_user_message ⟨msg.userId, msg.username, msg.message⟩ <;>
      simp [fsWrite, fsRead]

theorem upload_roundtrip_witness :
    (∀ b ∈ [97, 98, 99], b < 256) ∧
    ("YWJj" : String) = b64encodeStr [97, 98, 99] ∧
    fsRead (save_document ⟨"f.bin", [1, 2]⟩ []).2
      (osPathJoin UPLOAD_DIR "f.bin") = some [1, 2] ∧
    fsRead (process_message_with_base64_file ⟨"u", "n", "hi", "t.txt", "YWJj"⟩ []).2
      (osPathJoin UPLOAD_DIR "t.txt") = some [97, 98, 99] :=
  ⟨by decide, by decide,
   (upload_roundtrip ⟨"f.bin", [1, 2]⟩ ⟨"u", "n", "hi", "t.txt", "YWJj"⟩
     [97, 98, 99] [] [] (by decide) (by decide)).1,
   (upload_roundtrip ⟨"f.bin", [1, 2]⟩ ⟨"u", "n", "hi", "t.txt", "YWJj"⟩
     [97, 98, 99] [] [] (by decide) (by decide)).2⟩

/-- C6: when a decoded claims list contains two or more records with the
same `typ`, the mapping binds that `typ` to the `val` of the last such
record (duplicates silently overwrite). -/
theorem duplicate_typ_last_wins (principal : Json) (pre mid post : List (Json × Json))
    (t v1 v2 : Json)
    (hdict : claimsDict principal = some (pre ++ (t, v1) :: mid ++ (t, v2) :: post))
    (hpost : ∀ p ∈ post, p.1 ≠ t) :
    dictGet (pre ++ (t, v1) :: mid ++ (t, v2) :: post) t = some v2 := by
  have h := dictGet_last (pre ++ (t, v1) :: mid) post t v2 hpost
  simpa using h

theorem duplicate_typ_last_wins_witness :
    claimsDict (Json.obj [(strCodes "claims", .arr
        [.obj [(strCodes "typ", .str (strCodes "a")),
               (strCodes "val", .str (strCodes "1"))],
         .obj [(strCodes "typ", .str (strCodes "a")),
               (strCodes "val", .str (strCodes "2"))]])]) =
      some [(Json.str (strCodes "a"), Json.str (strCodes "1")),
            (Json.str (strCodes "a"), Json.str (strCodes "2"))] ∧
    dictGet [(Json.str (strCodes "a"), Json.str (strCodes "1")),
             (Json.str (strCodes "a"), Json.str (strCodes "2"))]
      (Json.str (strCodes "a")) = some (Json.str (strCodes "2")) :=
  ⟨by decide,
   duplicate_typ_last_wins
     (Json.obj [(strCodes "claims", .arr
        [.obj [(strCodes "typ", .str (strCodes "a")),
               (strCodes "val", .str (strCodes "1"))],
         .obj [(strCodes "typ", .str (strCodes "a")),
               (strCodes "val", .str (strCodes "2"))]])])
     [] [] [] (Json.str (strCodes "a")) (Json.str (strCodes "1"))
     (Json.str (strCodes "2"))
     (by decide) (by intro p hp; simp at hp)⟩

/-- C7: a request to `GET /health` with no identity header gets an empty
claims mapping (not an error), the email-claim lookup falls back to
`"unknown"`, and the endpoint answers `"ok - user: unknown"`. -/
theorem health_no_header :
    get_user_from_request none = [] ∧
    dictGet (get_user_from_request none) (Json.str (strCodes emailClaimUri)) = none ∧
    health_check none = "ok - user: unknown" :=
  ⟨rfl, rfl, rfl⟩

/-- C8: the message-plus-multipart-file endpoint saves the file first —
the filesystem effect happens regardless of message validation — and on
success composes `{messageResponse, fileUpload}` with
`fileUpload = {filename, status: "uploaded"}`. -/
theorem multipart_saves_then_validates (userId username message : String)
    (file : UploadFile) (fs : Fs) :
    (process_message_with_file userId username message file fs).2 =
      fsWrite (osPathJoin UPLOAD_DIR file.filename) file.content fs ∧
    (pyStrip message ≠ "" →
      (process_message_with_file userId username message file fs).1 =
        .ok ⟨⟨userId, username, message,
              "Echo to " ++ username ++ ": " ++ message⟩,
             ⟨file.filename, "uploaded"⟩⟩) := by
  constructor
  · unfold process_message_with_file save_document
    cases handle_user_message ⟨userId, username, message⟩ <;> rfl
  · intro h
    unfold process_message_with_file save_document
    simp [handle_user_message, h]

theorem multipart_saves_then_validates_witness :
    pyStrip "hi" ≠ "" ∧
    (process_message_with_file "u1" "alice" "hi" ⟨"f.bin", [1, 2]⟩ []).1 =
      .ok ⟨⟨"u1", "alice", "hi", "Echo to alice: hi"⟩, ⟨"f.bin", "uploaded"⟩⟩ :=
  ⟨by decide,
   (multipart_saves_then_validates "u1" "alice" "hi" ⟨"f.bin", [1, 2]⟩ []).2
     (by decide)⟩

/-- C9: if even one record of the decoded claims array lacks a `typ` or
`val` key (or is not an object), the whole flattening raises inside the
single fail-soft handler: every well-formed record is discarded too and
the decoder returns the empty mapping. -/
theorem bad_record_discards_all (enc : String)
    (fields : List (List Nat × Json)) (cs : List Json) (c : Json)
    (hp : principalOfHeader enc = some (.obj fields))
    (hclaims : objGet fields (strCodes "claims") = some (.arr cs))
    (hc : c ∈ cs) (hbad : claimPair c = none) :
    claimsDict (.obj fields) = none ∧ get_user_from_request (some enc) = [] := by
  have hnone : buildClaims cs = none := buildClaims_mem_none cs c hc hbad
  have hdict : claimsDict (.obj fields) = none := by
    simp [claimsDict, hclaims, hnone]
  exact ⟨hdict, by simp [get_user_from_request, hp, hdict]⟩

theorem bad_record_discards_all_witness :
    claimPair (Json.obj [(strCodes "oops", .str (strCodes "x"))]) = none ∧
    get_user_from_request
      (some "eyJjbGFpbXMiOiBbeyJ0eXAiOiAiYSIsICJ2YWwiOiAiYiJ9LCB7Im9vcHMiOiAieCJ9XX0=") =
      [] :=
  ⟨by decide,
   (bad_record_discards_all
     "eyJjbGFpbXMiOiBbeyJ0eXAiOiAiYSIsICJ2YWwiOiAiYiJ9LCB7Im9vcHMiOiAieCJ9XX0="
     [(strCodes "claims", .arr
        [.obj [(strCodes "typ", .str (strCodes "a")),
               (strCodes "val", .str (strCodes "b"))],
         .obj [(strCodes "oops", .str (strCodes "x"))]])]
     [.obj [(strCodes "typ", .str (strCodes "a")),
            (strCodes "val", .str (strCodes "b"))],
      .obj [(strCodes "oops", .str (strCodes "x"))]]
     (.obj [(strCodes "oops", .str (strCodes "x"))])
     (by decide) (by decide) (by simp) (by decide)).2⟩

/-- C10: in both combined endpoints, a blank message fails the request
with HTTP 500 but the uploaded file has already been written under the
upload directory and remains readable — the failure does not roll the
write back. -/
theorem blank_message_leaves_file :
    (∀ (msg : UserMessageWithBase64) (bytes : List Nat) (fs : Fs),
       pyStrip msg.message = "" → b64decode msg.fileData = some bytes →
       (process_message_with_base64_file msg fs).1 =
         .error ⟨500, "500: Message cannot be empty."⟩ ∧
       fsRead (process_message_with_base64_file msg fs).2
         (osPathJoin UPLOAD_DIR msg.filename) = some bytes) ∧
    (∀ (userId username message : String) (file : UploadFile) (fs : Fs),
       pyStrip message = "" →
       (process_message_with_file userId username message file fs).1 =
         .error ⟨500, "Message cannot be empty."⟩ ∧
       fsRead (process_message_with_file userId username message file fs).2
         (osPathJoin UPLOAD_DIR file.filename) = some file.content) := by
  constructor
  · intro msg bytes fs hblank hdec
    simp only [process_message_with_base64_file, hdec]
    simp only [handle_user_message, hblank, if_pos, strOfHttpError]
    refine ⟨by rfl, by simp [fsWrite, fsRead]⟩
  · intro userId username message file fs hblank
    unfold process_message_with_file save_document
    simp [handle_user_message, hblank, fsWrite, fsRead]

theorem blank_message_leaves_file_witness :
    pyStrip "   " = "" ∧
    ((process_message_with_base64_file ⟨"u", "alice", "   ", "t.txt", "YWJj"⟩ []).1 =
       .error ⟨500, "500: Message cannot be empty."⟩ ∧
     fsRead (process_message_with_base64_file ⟨"u", "alice", "   ", "t.txt", "YWJj"⟩ []).2
       (osPathJoin UPLOAD_DIR "t.txt") = some [97, 98, 99]) ∧
    ((process_message_with_file "u" "alice" "   " ⟨"f.bin", [1, 2, 3]⟩ []).1 =
       .error ⟨500, "Message cannot be empty."⟩ ∧
     fsRead (process_message_with_file "u" "alice" "   " ⟨"f.bin", [1, 2, 3]⟩ []).2
       (osPathJoin UPLOAD_DIR "f.bin") = some [1, 2, 3]) :=
  ⟨by decide,
   blank_message_leaves_file.1 ⟨"u", "alice", "   ", "t.txt", "YWJj"⟩
     [97, 98, 99] [] (by decide) (by decide),
   blank_message_leaves_file.2 "u" "alice" "   " ⟨"f.bin", [1, 2, 3]⟩ []
     (by decide)⟩
